import Mathlib

/-!
Shallow embedding of the yts-movie-scraper program (src/src/main.rs) and
proofs about its incremental-sync algorithm, magnet-link builder, size
formatting and reporting.

Modelling conventions:
  - Rust u32 and u64 values are modelled as Nat (all operations involved are
    comparisons, addition and division, none of which overflow here).
  - The remote catalog is a function from 1-based page numbers to a fetch
    outcome: either a decoded response (with an optional movie list, absence
    meaning the page is out of range) or a failure code standing for a
    transport or decode error.
  - Unbounded loops are given a fuel parameter; exhausting fuel yields the
    distinguished outcome RunResult.diverge, separate from fetch failure.
  - The backing file is threaded explicitly: fetch_movies receives the
    pre-sync file state (of arbitrary type) and a serializer standing for
    save_movies, and returns the post-sync file state.
-/

namespace Yts

/-- Persisted torrent record (struct Torrent, main.rs lines 36-43). -/
structure Torrent where
  quality : String
  hash : String
  magnet_url : String
  size_bytes : Nat
  size : String
deriving Repr, DecidableEq

/-- Persisted movie record (struct Movie, main.rs lines 45-52). -/
structure Movie where
  id : Nat
  title : String
  year : Nat
  imdb_code : String
  torrents : List Torrent
deriving Repr, DecidableEq

/-- Raw torrent descriptor as decoded from the remote API
(struct ApiTorrent, main.rs lines 63-71). -/
structure ApiTorrent where
  quality : String
  torrent_type : String
  hash : String
  size : String
  size_bytes : Nat
deriving Repr, DecidableEq

/-- Raw movie item as decoded from the remote API
(struct ApiMovie, main.rs lines 54-61). -/
structure ApiMovie where
  id : Nat
  title : String
  year : Nat
  imdb_code : String
  torrents : List ApiTorrent
deriving Repr, DecidableEq

/-- Payload of one page response (struct ApiData, main.rs lines 73-77):
the total remote count plus an optional item list; a missing list signals
an out-of-range page. -/
structure ApiData where
  movie_count : Nat
  movies : Option (List ApiMovie)
deriving Repr, DecidableEq

/-- Outcome of one fetch_page call (main.rs lines 111-119): a decoded
response, or a transport or decode error identified by a code. -/
inductive FetchResult where
  | ok (response : ApiData)
  | err (e : Nat)
deriving Repr, DecidableEq

/-- Outcome of a fuelled loop or of a whole run: a value, a propagated
fetch error, or fuel exhaustion (the loop did not finish). -/
inductive RunResult (α : Type) where
  | ok (a : α)
  | err (e : Nat)
  | diverge
deriving Repr, DecidableEq

/-- Rust title.replace(.., ..) with a single-character pattern maps each
matching character of the string to the replacement; with pattern space and
replacement plus this is exactly a character map (main.rs line 85). -/
def encode_title (title : String) : String :=
  String.mk (title.data.map (fun c => if c = ' ' then '+' else c))

/-- The fixed tracker tail of every generated magnet URI, exactly the
literal embedded in the format string at main.rs line 87. -/
def magnet_trackers_tail : String :=
  "&tr=udp://open.demonii.com:1337/announce&tr=udp://tracker.openbittorrent.com:80&tr=udp://tracker.coppersurfer.tk:6969&tr=udp://glotorrents.pw:6969/announce&tr=udp://tracker.opentrackr.org:1337/announce&tr=udp://torrent.gresille.org:80/announce&tr=udp://p4p.arenabg.com:1337&tr=udp://tracker.leechers-paradise.org:6969"

/-- create_magnet_url (main.rs lines 84-90): hash and plus-encoded title
spliced into the fixed format string, followed by the tracker tail. -/
def create_magnet_url (hash title : String) : String :=
  "magnet:?xt=urn:btih:" ++ hash ++ "&dn=" ++ encode_title title ++ magnet_trackers_tail

/-- The eight tracker URLs, written as a list (spec section 4.1 names
eight UDP tracker announce URLs appended as repeated tr parameters). -/
def tracker_urls : List String :=
  ["udp://open.demonii.com:1337/announce",
   "udp://tracker.openbittorrent.com:80",
   "udp://tracker.coppersurfer.tk:6969",
   "udp://glotorrents.pw:6969/announce",
   "udp://tracker.opentrackr.org:1337/announce",
   "udp://torrent.gresille.org:80/announce",
   "udp://p4p.arenabg.com:1337",
   "udp://tracker.leechers-paradise.org:6969"]

/-- Unit thresholds of format_size (main.rs lines 93-96). -/
def KB : Nat := 1024

def MB : Nat := KB * 1024

def GB : Nat := MB * 1024

def TB : Nat := GB * 1024

/-- Two-decimal rendering of num / den, modelling the Rust expression
format with precision 2 applied to (num as f64 / den as f64): the quotient
rounded to hundredths with ties to even (IEEE default), printed with an
always-two-digit fraction. Exact at every input whose quotient is exactly
representable, in particular at all powers of two ratios used in the
claims. -/
def two_dec (num den : Nat) : String :=
  let q := num * 100
  let w := q / den
  let r := q % den
  let h :=
    if den < 2 * r then w + 1
    else if 2 * r < den then w
    else if w % 2 = 0 then w else w + 1
  toString (h / 100) ++ "." ++ (if h % 100 < 10 then "0" ++ toString (h % 100) else toString (h % 100))

/-- format_size (main.rs lines 92-109): pick the largest unit not above
the byte count, render with two decimals, or plain bytes below one KB. -/
def format_size (bytes : Nat) : String :=
  if bytes ≥ TB then two_dec bytes TB ++ " TB"
  else if bytes ≥ GB then two_dec bytes GB ++ " GB"
  else if bytes ≥ MB then two_dec bytes MB ++ " MB"
  else if bytes ≥ KB then two_dec bytes KB ++ " KB"
  else toString bytes ++ " B"

/-- load_existing_movies (main.rs lines 121-129). The file system is
modelled as an optional file content and the serde_json parser (an external
crate) as a parameter: a missing file yields the empty collection, an
existing file is parsed, and a parse error propagates. -/
def load_existing_movies (parse : String → Except Nat (List Movie))
    (file : Option String) : Except Nat (List Movie) :=
  match file with
  | none => Except.ok []
  | some content => parse content

/-- Largest torrent of a movie, modelling movie.torrents.iter().max_by_key
on size_bytes (main.rs line 248): none exactly when the list is empty; on
ties the later element wins, as in Rust. -/
def largest_torrent (ts : List Torrent) : Option Torrent :=
  ts.foldl
    (fun acc t =>
      match acc with
      | none => some t
      | some m => if m.size_bytes ≤ t.size_bytes then some t else some m)
    none

/-- Observable output of the size command. -/
structure SizeReport where
  total_movies : Nat
  movies_with_torrents : Nat
  total_bytes : Nat
  average_line : String
deriving Repr, DecidableEq

/-- calculate_size (main.rs lines 234-268): none when the collection is
empty (the command prints a hint and exits); otherwise the fold over movies
adds the largest torrent size of each movie that has one and counts those
movies, and the average line divides only when that count is positive. -/
def calculate_size (movies : List Movie) : Option SizeReport :=
  if movies.isEmpty then none
  else
    let step := movies.foldl
      (fun (acc : Nat × Nat) movie =>
        match largest_torrent movie.torrents with
        | some t => (acc.1 + t.size_bytes, acc.2 + 1)
        | none => acc)
      (0, 0)
    some
      { total_movies := movies.length
        movies_with_torrents := step.2
        total_bytes := step.1
        average_line :=
          if 0 < step.2 then format_size (step.1 / step.2)
          else "N/A (no movies with torrents)" }

/-- The local high-water mark: existing_movies.iter().map(id).max()
.unwrap_or(0) (main.rs lines 141 and 274). -/
def latest_id_of (movies : List Movie) : Nat :=
  (movies.map Movie.id).foldr max 0

/-- Inner per-page loop of the boundary scan (main.rs lines 167-173 and
297-303): walk the page items in order, stop at the first id at or below
the cursor (returning found = true), count the items before it. -/
def count_new_on_page (latest_id : Nat) : List ApiMovie → Nat × Bool
  | [] => (0, false)
  | m :: rest =>
    if m.id ≤ latest_id then (0, true)
    else
      let (c, f) := count_new_on_page latest_id rest
      (c + 1, f)

/-- Step-2 boundary scan loop, shared verbatim by check_new_movies
(main.rs lines 164-181) and fetch_movies (lines 293-311): fetch successive
pages from the given start page, accumulate the new-item count, stop at the
first page containing the boundary or at the first out-of-range page.
Returns the count together with the last page requested. -/
def scan_new_movies (fetch : Nat → FetchResult) (latest_id : Nat) :
    Nat → Nat → Nat → RunResult (Nat × Nat)
  | 0, _, _ => RunResult.diverge
  | fuel + 1, page, acc =>
    match fetch page with
    | FetchResult.err e => RunResult.err e
    | FetchResult.ok data =>
      match data.movies with
      | none => RunResult.ok (acc, page)
      | some movies =>
        let (c, found) := count_new_on_page latest_id movies
        if found then RunResult.ok (acc + c, page)
        else scan_new_movies fetch latest_id fuel (page + 1) (acc + c)

/-- Torrent materialization (main.rs lines 344-355): label is the quality
and type joined by a dash, magnet from create_magnet_url, hash and sizes
copied verbatim. -/
def build_torrent (title : String) (t : ApiTorrent) : Torrent :=
  { quality := t.quality ++ "-" ++ t.torrent_type
    hash := t.hash
    magnet_url := create_magnet_url t.hash title
    size_bytes := t.size_bytes
    size := t.size }

/-- Movie materialization (main.rs lines 357-363). -/
def build_movie (m : ApiMovie) : Movie :=
  { id := m.id
    title := m.title
    year := m.year
    imdb_code := m.imdb_code
    torrents := m.torrents.map (build_torrent m.title) }

/-- Inner per-page loop of Step 3 (main.rs lines 334-367): same boundary
rule as the scan, but materializing each new item in encounter order. -/
def collect_new_on_page (latest_id : Nat) : List ApiMovie → List Movie × Bool
  | [] => ([], false)
  | m :: rest =>
    if m.id ≤ latest_id then ([], true)
    else
      let (ms, f) := collect_new_on_page latest_id rest
      (build_movie m :: ms, f)

/-- Step-3 page loop of fetch_movies (main.rs lines 334-377): fetch pages
from the start page, materialize items above the boundary, stop at the
boundary or at the first out-of-range page. -/
def fetch_pages_loop (fetch : Nat → FetchResult) (latest_id : Nat) :
    Nat → Nat → List Movie → RunResult (List Movie)
  | 0, _, _ => RunResult.diverge
  | fuel + 1, page, acc =>
    match fetch page with
    | FetchResult.err e => RunResult.err e
    | FetchResult.ok data =>
      match data.movies with
      | none => RunResult.ok acc
      | some movies =>
        let (ms, found) := collect_new_on_page latest_id movies
        if found then RunResult.ok (acc ++ ms)
        else fetch_pages_loop fetch latest_id fuel (page + 1) (acc ++ ms)

/-- Ordering used by the final sort: the comparator b.id.cmp(a.id) of
main.rs line 384, i.e. descending by id. -/
def movie_desc (a b : Movie) : Prop := b.id ≤ a.id

instance : DecidableRel movie_desc := fun a b => Nat.decLe b.id a.id

instance : IsTotal Movie movie_desc := ⟨fun a b => Nat.le_total b.id a.id⟩

instance : IsTrans Movie movie_desc := ⟨fun _ _ _ h1 h2 => Nat.le_trans h2 h1⟩

/-- The final sort, all_new_movies.sort_by(b.id.cmp(a.id)) at main.rs line
384. Rust sort_by is a stable sort; a stable sort with respect to a total
preorder has a unique result, so the stable insertionSort computes the same
list. -/
def sort_desc_by_id (l : List Movie) : List Movie :=
  List.insertionSort movie_desc l

/-- Control flow of fetch_movies (main.rs lines 270-392), fetch side:
probe page 1 for the total count (line 277), run the Step-2 boundary scan
when the cursor is positive (lines 292-311), then run the Step-3
collection loop from page 1 (lines 334-377) and merge and sort (lines
383-384). The zero-count branch at lines 313-319 contains only a dead
progress-bar binding and no early return, so control always falls through
to the Step-3 loop. Any fetch error aborts the whole run at the point it
occurs. The result carries the newly materialized movies and the merged
collection. -/
def fetch_movies_result (fetch : Nat → FetchResult) (existing : List Movie)
    (fuel : Nat) : RunResult (List Movie × List Movie) :=
  let latest_id := latest_id_of existing
  match fetch 1 with
  | FetchResult.err e => RunResult.err e
  | FetchResult.ok _first =>
    let step2 : RunResult Nat :=
      if 0 < latest_id then
        match scan_new_movies fetch latest_id fuel 1 0 with
        | RunResult.ok s => RunResult.ok s.1
        | RunResult.err e => RunResult.err e
        | RunResult.diverge => RunResult.diverge
      else RunResult.ok 0
    match step2 with
    | RunResult.err e => RunResult.err e
    | RunResult.diverge => RunResult.diverge
    | RunResult.ok _new_count =>
      match fetch_pages_loop fetch latest_id fuel 1 [] with
      | RunResult.err e => RunResult.err e
      | RunResult.diverge => RunResult.diverge
      | RunResult.ok new_movies =>
        RunResult.ok (new_movies, sort_desc_by_id (new_movies ++ existing))

/-- fetch_movies (main.rs lines 270-392), file side: the existing
collection is passed in pre-loaded (see load_existing_movies), the backing
file is threaded as a value of arbitrary type and save stands for
save_movies (line 386), which runs exactly when all fetching succeeded;
every error path of the source returns through the question-mark operator
before the write, leaving the file as it was. -/
def fetch_movies {σ : Type} (save : List Movie → σ) (fetch : Nat → FetchResult)
    (existing : List Movie) (fuel : Nat) (file0 : σ) :
    RunResult (List Movie × List Movie) × σ :=
  match fetch_movies_result fetch existing fuel with
  | RunResult.ok r => (RunResult.ok r, save r.2)
  | RunResult.err e => (RunResult.err e, file0)
  | RunResult.diverge => (RunResult.diverge, file0)

/-- A remote catalog built from a finite list of pages: page p (1-based)
answers with the p-th list when in range and with no movie list otherwise,
and never fails; the reported total count is the number of items. -/
def pages_fetch (pages : List (List ApiMovie)) : Nat → FetchResult :=
  fun p => FetchResult.ok { movie_count := pages.flatten.length, movies := pages[p - 1]? }

/-- Specification-side count of new items (spec section 4.4 Step 2): the
items of the flattened newest-first listing that are strictly above the
cursor and precede the first item at or below it. -/
def spec_new_count (latest_id : Nat) (pages : List (List ApiMovie)) : Nat :=
  (pages.flatten.takeWhile (fun m => decide (latest_id < m.id))).length

/-- Specification-side stopping page: the pages strictly before the
boundary are exactly the leading pages all of whose items are above the
cursor; the scan stops on the page right after them (the first page
containing a boundary item, or the first out-of-range page when every
listed page is entirely new). -/
def spec_stop_page (latest_id : Nat) (pages : List (List ApiMovie)) : Nat :=
  (pages.takeWhile (fun pg => pg.all (fun m => decide (latest_id < m.id)))).length + 1

/-- Pure form of the boundary-scan loop over an explicit list of remaining
pages: the accumulated count together with the number of pages requested
(the stopping page counts, as does the final out-of-range request). -/
def scan_list (latest : Nat) : List (List ApiMovie) → Nat × Nat
  | [] => (0, 1)
  | pg :: rest =>
    let s := count_new_on_page latest pg
    if s.2 then (s.1, 1)
    else ((scan_list latest rest).1 + s.1, (scan_list latest rest).2 + 1)

/-- Pure form of the Step-3 collection loop over an explicit list of
remaining pages. -/
def collect_list (latest : Nat) : List (List ApiMovie) → List Movie
  | [] => []
  | pg :: rest =>
    let s := collect_new_on_page latest pg
    if s.2 then s.1 else s.1 ++ collect_list latest rest

/-- Synthetic remote item with a given id. -/
def example_item (i : Nat) : ApiMovie :=
  { id := i, title := "Example", year := 2020, imdb_code := "tt0000000", torrents := [] }

/-- The synthetic remote of the pagination boundary test: three pages
holding ids 100 down to 91, 90 down to 81 and 80 down to 71. -/
def example_pages : List (List ApiMovie) :=
  [(List.range' 91 10).reverse.map example_item,
   (List.range' 81 10).reverse.map example_item,
   (List.range' 71 10).reverse.map example_item]

/-- A stored movie with id 7, used for the up-to-date sync scenario. -/
def uptodate_movie : Movie :=
  { id := 7, title := "Known", year := 2019, imdb_code := "tt0000007", torrents := [] }

/-- A pre-existing stored movie with id 1, used by concrete sync runs. -/
def witness_movie : Movie :=
  { id := 1, title := "Old", year := 2018, imdb_code := "tt0000001", torrents := [] }

/-- A one-page remote holding the new ids 3 and 2, used by concrete sync
runs against the store holding only witness_movie. -/
def witness_pages : List (List ApiMovie) := [[example_item 3, example_item 2]]

/-- The movies such a run materializes. -/
def witness_new : List Movie := [build_movie (example_item 3), build_movie (example_item 2)]

/-- The merged collection such a run persists. -/
def witness_merged : List Movie := witness_new ++ [witness_movie]

/-- The size report of the one-movie collection without torrents. -/
def empty_torrents_report : SizeReport :=
  { total_movies := 1
    movies_with_torrents := 0
    total_bytes := 0
    average_line := "N/A (no movies with torrents)" }

section ScanLemmas

theorem latest_id_of_ge {movies : List Movie} {m : Movie} (hm : m ∈ movies) :
    m.id ≤ latest_id_of movies := by
  induction movies with
  | nil => cases hm
  | cons x xs ih =>
    rcases List.mem_cons.mp hm with rfl | h
    · exact Nat.le_max_left _ _
    · exact Nat.le_trans (ih h) (Nat.le_max_right _ _)

theorem count_new_on_page_eq (latest : Nat) (pg : List ApiMovie) :
    count_new_on_page latest pg =
      ((pg.takeWhile (fun m => decide (latest < m.id))).length,
        pg.any (fun m => decide (m.id ≤ latest))) := by
  induction pg with
  | nil => rfl
  | cons m rest ih =>
    by_cases h : m.id ≤ latest
    · simp [count_new_on_page, h, List.takeWhile_cons, Nat.not_lt.mpr h]
    · simp [count_new_on_page, h, ih, List.takeWhile_cons, Nat.lt_of_not_le h, Nat.add_comm]

theorem scan_new_movies_pages (latest : Nat) :
    ∀ (l pages : List (List ApiMovie)) (page acc fuel : Nat),
      1 ≤ page → pages.drop (page - 1) = l → l.length + 1 ≤ fuel →
      scan_new_movies (pages_fetch pages) latest fuel page acc =
        RunResult.ok (acc + (scan_list latest l).1, page + (scan_list latest l).2 - 1) := by
  intro l
  induction l with
  | nil =>
    intro pages page acc fuel hp hd hf
    cases fuel with
    | zero => omega
    | succ f =>
      have hnone : pages[page - 1]? = none := by
        rw [List.getElem?_eq_none]
        exact List.drop_eq_nil_iff.mp hd
      simp [scan_new_movies, pages_fetch, hnone, scan_list]
  | cons pg rest ih =>
    intro pages page acc fuel hp hd hf
    cases fuel with
    | zero => simp at hf
    | succ f =>
      have hsome : pages[page - 1]? = some pg := by
        have := List.getElem?_drop pages (page - 1) 0
        rw [hd] at this
        simpa using this.symm
      have hdrop : pages.drop page = rest := by
        have h1 : List.drop 1 (List.drop (page - 1) pages) = List.drop page pages := by
          rw [List.drop_drop]
          congr 1
          omega
        rw [← h1, hd]
        rfl
      rcases hc : count_new_on_page latest pg with ⟨c, found⟩
      cases found with
      | true =>
        simp [scan_new_movies, pages_fetch, hsome, hc, scan_list]
      | false =>
        have hrec := ih pages (page + 1) (acc + c) f (by omega) (by simpa using hdrop)
          (by simpa using Nat.le_of_succ_le_succ hf)
        simp only [scan_new_movies, pages_fetch, hsome, hc]
        rw [hrec]
        simp only [scan_list, hc, Bool.false_eq_true, if_false, RunResult.ok.injEq,
          Prod.mk.injEq]
        omega

theorem takeWhile_length_ne_of_any {latest : Nat} {pg : List ApiMovie}
    (h : pg.any (fun m => decide (m.id ≤ latest)) = true) :
    (pg.takeWhile (fun m => decide (latest < m.id))).length ≠ pg.length := by
  intro hlen
  have heq : pg.takeWhile (fun m => decide (latest < m.id)) = pg :=
    (List.takeWhile_sublist _).eq_of_length hlen
  have hall := List.takeWhile_eq_self_iff.mp heq
  rcases List.any_eq_true.mp h with ⟨x, hx, hpx⟩
  have hx2 := hall x hx
  simp at hpx hx2
  omega

theorem takeWhile_eq_self_of_not_any {latest : Nat} {pg : List ApiMovie}
    (h : ¬ pg.any (fun m => decide (m.id ≤ latest)) = true) :
    pg.takeWhile (fun m => decide (latest < m.id)) = pg := by
  apply List.takeWhile_eq_self_iff.mpr
  intro x hx
  simp only [List.any_eq_true, not_exists, not_and] at h
  have := h x hx
  simp at this ⊢
  omega

theorem scan_list_count (latest : Nat) :
    ∀ l, (scan_list latest l).1 = spec_new_count latest l := by
  intro l
  induction l with
  | nil => rfl
  | cons pg rest ih =>
    by_cases hany : pg.any (fun m => decide (m.id ≤ latest)) = true
    · have hne := takeWhile_length_ne_of_any hany
      simp [scan_list, count_new_on_page_eq, hany, spec_new_count,
        List.takeWhile_append, hne]
    · have heq := takeWhile_eq_self_of_not_any hany
      have hlen : (pg.takeWhile (fun m => decide (latest < m.id))).length = pg.length := by
        rw [heq]
      simp only [scan_list, count_new_on_page_eq, hany, if_false,
        Bool.false_eq_true, spec_new_count, List.flatten_cons,
        List.takeWhile_append, hlen, if_pos rfl] at *
      simp [ih, spec_new_count]
      omega

theorem scan_list_page (latest : Nat) :
    ∀ l, (scan_list latest l).2 = spec_stop_page latest l := by
  intro l
  induction l with
  | nil => rfl
  | cons pg rest ih =>
    by_cases hany : pg.any (fun m => decide (m.id ≤ latest)) = true
    · have hall : pg.all (fun m => decide (latest < m.id)) = false := by
        rcases List.any_eq_true.mp hany with ⟨x, hx, hpx⟩
        rw [Bool.eq_false_iff]
        intro hc
        have := List.all_eq_true.mp hc x hx
        simp at hpx this
        omega
      simp [scan_list, count_new_on_page_eq, hany, spec_stop_page,
        List.takeWhile_cons, hall]
    · have hall : pg.all (fun m => decide (latest < m.id)) = true := by
        simp only [List.all_eq_true]
        intro x hx
        simp only [List.any_eq_true, not_exists, not_and] at hany
        have := hany x hx
        simp at this ⊢
        omega
      simp [scan_list, count_new_on_page_eq, hany, spec_stop_page,
        List.takeWhile_cons, hall, ih]

end ScanLemmas

section CollectLemmas

theorem collect_new_on_page_eq (latest : Nat) (pg : List ApiMovie) :
    collect_new_on_page latest pg =
      ((pg.takeWhile (fun m => decide (latest < m.id))).map build_movie,
        pg.any (fun m => decide (m.id ≤ latest))) := by
  induction pg with
  | nil => rfl
  | cons m rest ih =>
    by_cases h : m.id ≤ latest
    · simp [collect_new_on_page, h, List.takeWhile_cons, Nat.not_lt.mpr h]
    · simp [collect_new_on_page, h, ih, List.takeWhile_cons, Nat.lt_of_not_le h]

theorem fetch_pages_loop_pages (latest : Nat) :
    ∀ (l pages : List (List ApiMovie)) (page : Nat) (acc : List Movie) (fuel : Nat),
      1 ≤ page → pages.drop (page - 1) = l → l.length + 1 ≤ fuel →
      fetch_pages_loop (pages_fetch pages) latest fuel page acc =
        RunResult.ok (acc ++ collect_list latest l) := by
  intro l
  induction l with
  | nil =>
    intro pages page acc fuel hp hd hf
    cases fuel with
    | zero => omega
    | succ f =>
      have hnone : pages[page - 1]? = none := by
        rw [List.getElem?_eq_none]
        exact List.drop_eq_nil_iff.mp hd
      simp [fetch_pages_loop, pages_fetch, hnone, collect_list]
  | cons pg rest ih =>
    intro pages page acc fuel hp hd hf
    cases fuel with
    | zero => simp at hf
    | succ f =>
      have hsome : pages[page - 1]? = some pg := by
        have := List.getElem?_drop pages (page - 1) 0
        rw [hd] at this
        simpa using this.symm
      have hdrop : pages.drop page = rest := by
        have h1 : List.drop 1 (List.drop (page - 1) pages) = List.drop page pages := by
          rw [List.drop_drop]
          congr 1
          omega
        rw [← h1, hd]
        rfl
      rcases hc : collect_new_on_page latest pg with ⟨ms, found⟩
      cases found with
      | true =>
        simp [fetch_pages_loop, pages_fetch, hsome, hc, collect_list]
      | false =>
        have hrec := ih pages (page + 1) (acc ++ ms) f (by omega) (by simpa using hdrop)
          (by simpa using Nat.le_of_succ_le_succ hf)
        simp only [fetch_pages_loop, pages_fetch, hsome, hc, Bool.false_eq_true, if_false]
        rw [hrec]
        simp [collect_list, hc]

theorem collect_list_eq (latest : Nat) :
    ∀ l, collect_list latest l =
      (l.flatten.takeWhile (fun m => decide (latest < m.id))).map build_movie := by
  intro l
  induction l with
  | nil => rfl
  | cons pg rest ih =>
    by_cases hany : pg.any (fun m => decide (m.id ≤ latest)) = true
    · have hne := takeWhile_length_ne_of_any hany
      simp [collect_list, collect_new_on_page_eq, hany, List.takeWhile_append, hne]
    · have heq := takeWhile_eq_self_of_not_any hany
      have hlen : (pg.takeWhile (fun m => decide (latest < m.id))).length = pg.length := by
        rw [heq]
      simp [collect_list, collect_new_on_page_eq, hany, List.takeWhile_append, hlen, ih, heq]

theorem collect_new_on_page_gt (latest : Nat) (pg : List ApiMovie) :
    ∀ m ∈ (collect_new_on_page latest pg).1, latest < m.id := by
  induction pg with
  | nil => intro m hm; cases hm
  | cons x rest ih =>
    intro m hm
    by_cases h : x.id ≤ latest
    · simp [collect_new_on_page, h] at hm
    · simp only [collect_new_on_page, if_neg h] at hm
      rcases List.mem_cons.mp hm with rfl | hm2
      · exact Nat.lt_of_not_le h
      · exact ih m hm2

theorem fetch_pages_loop_gt (latest : Nat) :
    ∀ (fuel page : Nat) (acc out : List Movie),
      fetch_pages_loop fetch latest fuel page acc = RunResult.ok out →
      (∀ m ∈ acc, latest < m.id) → ∀ m ∈ out, latest < m.id := by
  intro fuel
  induction fuel with
  | zero => intro page acc out h; cases h
  | succ f ih =>
    intro page acc out h hacc
    rcases h1 : fetch page with d | e
    · simp only [fetch_pages_loop, h1] at h
      rcases h2 : d.movies with _ | movies
      · simp only [h2] at h
        cases h
        exact hacc
      · simp only [h2] at h
        rcases hc : collect_new_on_page latest movies with ⟨ms, found⟩
        simp only [hc] at h
        have hmem : ∀ m ∈ acc ++ ms, latest < m.id := by
          intro m hm
          rcases List.mem_append.mp hm with hm1 | hm2
          · exact hacc m hm1
          · have := collect_new_on_page_gt latest movies
            rw [hc] at this
            exact this m hm2
        cases found with
        | true =>
          simp only [if_true] at h
          cases h
          exact hmem
        | false =>
          simp only [Bool.false_eq_true, if_false] at h
          exact ih (page + 1) (acc ++ ms) out h hmem
    · simp only [fetch_pages_loop, h1] at h
      cases h

theorem scan_new_movies_err (latest : Nat) :
    ∀ (fuel page acc e : Nat),
      scan_new_movies fetch latest fuel page acc = RunResult.err e →
      ∃ p, fetch p = FetchResult.err e := by
  intro fuel
  induction fuel with
  | zero => intro page acc e h; cases h
  | succ f ih =>
    intro page acc e h
    rcases h1 : fetch page with d | e2
    · simp only [scan_new_movies, h1] at h
      rcases h2 : d.movies with _ | movies
      · simp only [h2] at h; cases h
      · simp only [h2] at h
        rcases hc : count_new_on_page latest movies with ⟨c, found⟩
        simp only [hc] at h
        cases found with
        | true => simp only [if_true] at h; cases h
        | false =>
          simp only [Bool.false_eq_true, if_false] at h
          exact ih (page + 1) (acc + c) e h
    · simp only [scan_new_movies, h1] at h
      cases h
      exact ⟨page, h1⟩

theorem fetch_pages_loop_err (latest : Nat) :
    ∀ (fuel page : Nat) (acc : List Movie) (e : Nat),
      fetch_pages_loop fetch latest fuel page acc = RunResult.err e →
      ∃ p, fetch p = FetchResult.err e := by
  intro fuel
  induction fuel with
  | zero => intro page acc e h; cases h
  | succ f ih =>
    intro page acc e h
    rcases h1 : fetch page with d | e2
    · simp only [fetch_pages_loop, h1] at h
      rcases h2 : d.movies with _ | movies
      · simp only [h2] at h; cases h
      · simp only [h2] at h
        rcases hc : collect_new_on_page latest movies with ⟨ms, found⟩
        simp only [hc] at h
        cases found with
        | true => simp only [if_true] at h; cases h
        | false =>
          simp only [Bool.false_eq_true, if_false] at h
          exact ih (page + 1) (acc ++ ms) e h
    · simp only [fetch_pages_loop, h1] at h
      cases h
      exact ⟨page, h1⟩

end CollectLemmas

section RunLemmas

theorem fetch_movies_result_ok {fetch : Nat → FetchResult} {existing : List Movie}
    {fuel : Nat} {new_movies merged : List Movie}
    (h : fetch_movies_result fetch existing fuel = RunResult.ok (new_movies, merged)) :
    fetch_pages_loop fetch (latest_id_of existing) fuel 1 [] = RunResult.ok new_movies ∧
    merged = sort_desc_by_id (new_movies ++ existing) := by
  have hloop : ∀ hstep : RunResult Nat,
      (match hstep with
        | RunResult.err e => RunResult.err e
        | RunResult.diverge => RunResult.diverge
        | RunResult.ok _new_count =>
          match fetch_pages_loop fetch (latest_id_of existing) fuel 1 [] with
          | RunResult.err e => RunResult.err e
          | RunResult.diverge => RunResult.diverge
          | RunResult.ok new_movies2 =>
            RunResult.ok (new_movies2, sort_desc_by_id (new_movies2 ++ existing))) =
          RunResult.ok (new_movies, merged) →
      fetch_pages_loop fetch (latest_id_of existing) fuel 1 [] = RunResult.ok new_movies ∧
      merged = sort_desc_by_id (new_movies ++ existing) := by
    intro hstep hh
    rcases hstep with c | e | _
    · rcases h3 : fetch_pages_loop fetch (latest_id_of existing) fuel 1 [] with r | e3 | _
      all_goals simp only [h3] at hh
      · injection hh with h4
        injection h4 with h5 h6
        subst h5
        exact ⟨rfl, h6.symm⟩
      · exact RunResult.noConfusion hh
      · exact RunResult.noConfusion hh
    · exact RunResult.noConfusion hh
    · exact RunResult.noConfusion hh
  unfold fetch_movies_result at h
  rcases h1 : fetch 1 with d | e
  · simp only [h1] at h
    exact hloop _ h
  · simp only [h1] at h
    exact RunResult.noConfusion h

theorem fetch_movies_result_err {fetch : Nat → FetchResult} {existing : List Movie}
    {fuel e : Nat}
    (h : fetch_movies_result fetch existing fuel = RunResult.err e) :
    ∃ p, fetch p = FetchResult.err e := by
  unfold fetch_movies_result at h
  rcases h1 : fetch 1 with d | e2
  · simp only [h1] at h
    by_cases hl : 0 < latest_id_of existing
    · simp only [if_pos hl] at h
      rcases h2 : scan_new_movies fetch (latest_id_of existing) fuel 1 0 with s | e3 | _
      all_goals simp only [h2] at h
      · rcases h3 : fetch_pages_loop fetch (latest_id_of existing) fuel 1 [] with r | e4 | _
        all_goals simp only [h3] at h
        · exact RunResult.noConfusion h
        · cases h
          exact fetch_pages_loop_err _ _ _ _ _ h3
        · exact RunResult.noConfusion h
      · cases h
        exact scan_new_movies_err _ _ _ _ _ h2
      · exact RunResult.noConfusion h
    · simp only [if_neg hl] at h
      rcases h3 : fetch_pages_loop fetch (latest_id_of existing) fuel 1 [] with r | e4 | _
      all_goals simp only [h3] at h
      · exact RunResult.noConfusion h
      · cases h
        exact fetch_pages_loop_err _ _ _ _ _ h3
      · exact RunResult.noConfusion h
  · simp only [h1] at h
    cases h
    exact ⟨1, h1⟩

theorem fetch_movies_fst {σ : Type} (save : List Movie → σ) (fetch : Nat → FetchResult)
    (existing : List Movie) (fuel : Nat) (file0 : σ) :
    (fetch_movies save fetch existing fuel file0).1 = fetch_movies_result fetch existing fuel := by
  unfold fetch_movies
  rcases h : fetch_movies_result fetch existing fuel with r | e | _ <;> rfl

theorem fetch_movies_file_of_err {σ : Type} {save : List Movie → σ} {fetch : Nat → FetchResult}
    {existing : List Movie} {fuel : Nat} {file0 : σ} {e : Nat}
    (h : (fetch_movies save fetch existing fuel file0).1 = RunResult.err e) :
    (fetch_movies save fetch existing fuel file0).2 = file0 := by
  unfold fetch_movies at h ⊢
  rcases h1 : fetch_movies_result fetch existing fuel with r | e2 | _ <;> simp only [h1] at h ⊢
  exact RunResult.noConfusion h

end RunLemmas

section ReportLemmas

theorem frac_len_two :
    ∀ m : Nat, m < 100 →
      (if m < 10 then "0" ++ toString m else toString m).length = 2 := by
  decide

theorem largest_torrent_some (t : Torrent) (ts : List Torrent) :
    ∃ x, largest_torrent (t :: ts) = some x := by
  suffices haux : ∀ (l : List Torrent) (x : Torrent),
      ∃ y, (l.foldl
        (fun acc t2 =>
          match acc with
          | none => some t2
          | some m => if m.size_bytes ≤ t2.size_bytes then some t2 else some m)
        (some x)) = some y by
    simpa [largest_torrent] using haux ts t
  intro l
  induction l with
  | nil => intro x; exact ⟨x, rfl⟩
  | cons u l2 ih =>
    intro x
    by_cases hc : x.size_bytes ≤ u.size_bytes
    · simpa [hc] using ih u
    · simpa [hc] using ih x

theorem calc_fold_count (movies : List Movie) :
    ∀ ab : Nat × Nat,
      (movies.foldl
        (fun (acc : Nat × Nat) movie =>
          match largest_torrent movie.torrents with
          | some t => (acc.1 + t.size_bytes, acc.2 + 1)
          | none => acc)
        ab).2 =
      ab.2 + (movies.filter (fun m => !m.torrents.isEmpty)).length := by
  induction movies with
  | nil => intro ab; simp
  | cons m rest ih =>
    intro ab
    rcases hts : m.torrents with _ | ⟨t, ts⟩
    · have hnone : largest_torrent m.torrents = none := by rw [hts]; rfl
      have hemp : (!m.torrents.isEmpty) = false := by rw [hts]; rfl
      simp only [List.foldl_cons, hnone, List.filter_cons, hemp]
      rw [ih]
      simp
    · obtain ⟨x, hx⟩ : ∃ x, largest_torrent m.torrents = some x := by
        rw [hts]; exact largest_torrent_some t ts
      have hemp : (!m.torrents.isEmpty) = true := by rw [hts]; rfl
      simp only [List.foldl_cons, hx, List.filter_cons, hemp]
      rw [ih]
      simp
      omega

end ReportLemmas

/-- C7: load_existing_movies returns the empty collection when the backing
file does not exist, and when the file exists but its contents fail to
parse as the persisted schema, the parse error propagates instead of any
collection being returned. -/
theorem C7_load_missing_or_corrupt (parse : String → Except Nat (List Movie))
    (content : String) (e : Nat) (h : parse content = Except.error e) :
    load_existing_movies parse none = Except.ok [] ∧
    load_existing_movies parse (some content) = Except.error e :=
  ⟨rfl, h⟩

/-- C7 witness: a parser that always fails, applied to a present file and
to a missing file. -/
theorem C7_load_missing_or_corrupt_witness :
    load_existing_movies (fun _ => Except.error 3) none = Except.ok [] ∧
    load_existing_movies (fun _ => Except.error 3) (some "corrupt") = Except.error 3 :=
  C7_load_missing_or_corrupt (fun _ => Except.error 3) "corrupt" 3 rfl

set_option maxRecDepth 8000 in
/-- C8: the magnet builder is a pure total function whose output embeds
the hash after the btih prefix and the title with each space character
mapped to a plus and every other character unchanged, followed by exactly
the eight fixed tracker URLs as repeated tr parameters. -/
theorem C8_magnet_url_shape (hash title : String) (i : Nat)
    (hi : i < title.data.length) :
    create_magnet_url hash title =
      "magnet:?xt=urn:btih:" ++ hash ++ "&dn=" ++ encode_title title ++
        String.join (tracker_urls.map (fun u => "&tr=" ++ u)) ∧
    tracker_urls.length = 8 ∧
    (encode_title title).data.length = title.data.length ∧
    (encode_title title).data.get ⟨i, by simpa [encode_title] using hi⟩ =
      (if title.data.get ⟨i, hi⟩ = ' ' then '+' else title.data.get ⟨i, hi⟩) := by
  refine ⟨?_, rfl, by simp [encode_title], ?_⟩
  · have htail : magnet_trackers_tail =
        String.join (tracker_urls.map (fun u => "&tr=" ++ u)) := by decide
    rw [create_magnet_url, htail]
  · simp [encode_title, List.get_eq_getElem, List.getElem_map]

/-- C8 witness: hash cafebabe and a title holding one space, inspected at
the space position. -/
theorem C8_magnet_url_shape_witness :
    create_magnet_url "cafebabe" "a b" =
      "magnet:?xt=urn:btih:" ++ "cafebabe" ++ "&dn=" ++ encode_title "a b" ++
        String.join (tracker_urls.map (fun u => "&tr=" ++ u)) ∧
    tracker_urls.length = 8 ∧
    (encode_title "a b").data.length = ("a b" : String).data.length ∧
    (encode_title "a b").data.get
        ⟨1, by simpa [encode_title] using (by decide : 1 < ("a b" : String).data.length)⟩ =
      (if ("a b" : String).data.get ⟨1, by decide⟩ = ' ' then '+'
        else ("a b" : String).data.get ⟨1, by decide⟩) :=
  C8_magnet_url_shape "cafebabe" "a b" 1 (by decide)

/-- C9: format_size maps 1023 bytes to 1023 B, 1024 bytes to 1.00 KB and
1048576 bytes to 1.00 MB; in general it selects the unit at successive
1024-byte steps (1024, 1048576, 1073741824 and 1099511627776 are the
powers 1024 to the 1, 2, 3 and 4) and every non-byte rendering carries an
exactly-two-digit fraction. -/
theorem C9_format_size_boundaries :
    format_size 1023 = "1023 B" ∧
    format_size 1024 = "1.00 KB" ∧
    format_size 1048576 = "1.00 MB" ∧
    (∀ b, b < 1024 → format_size b = toString b ++ " B") ∧
    (∀ b, 1024 ≤ b → b < 1048576 → format_size b = two_dec b 1024 ++ " KB") ∧
    (∀ b, 1048576 ≤ b → b < 1073741824 → format_size b = two_dec b 1048576 ++ " MB") ∧
    (∀ b, 1073741824 ≤ b → b < 1099511627776 →
      format_size b = two_dec b 1073741824 ++ " GB") ∧
    (∀ b, 1099511627776 ≤ b → format_size b = two_dec b 1099511627776 ++ " TB") ∧
    (∀ num den : Nat, ∃ whole frac : String,
      two_dec num den = whole ++ "." ++ frac ∧ frac.length = 2) := by
  have hKB : KB = 1024 := by norm_num [KB]
  have hMB : MB = 1048576 := by norm_num [MB, KB]
  have hGB : GB = 1073741824 := by norm_num [GB, MB, KB]
  have hTB : TB = 1099511627776 := by norm_num [TB, GB, MB, KB]
  refine ⟨by decide, by decide, by decide, ?_, ?_, ?_, ?_, ?_, ?_⟩
  · intro b hb
    simp only [format_size, hKB, hMB, hGB, hTB]
    split_ifs <;> first | rfl | (exfalso; omega)
  · intro b hb1 hb2
    simp only [format_size, hKB, hMB, hGB, hTB]
    split_ifs <;> first | rfl | (exfalso; omega)
  · intro b hb1 hb2
    simp only [format_size, hKB, hMB, hGB, hTB]
    split_ifs <;> first | rfl | (exfalso; omega)
  · intro b hb1 hb2
    simp only [format_size, hKB, hMB, hGB, hTB]
    split_ifs <;> first | rfl | (exfalso; omega)
  · intro b hb
    simp only [format_size, hKB, hMB, hGB, hTB]
    split_ifs <;> first | rfl | (exfalso; omega)
  · intro num den
    exact ⟨_, _, rfl, frac_len_two _ (Nat.mod_lt _ (by norm_num))⟩

/-- C9 witness: the KB clause applied at 2048 bytes. -/
theorem C9_format_size_boundaries_witness :
    format_size 2048 = two_dec 2048 1024 ++ " KB" :=
  C9_format_size_boundaries.2.2.2.2.1 2048 (by norm_num) (by norm_num)

/-- C10: the size report counts exactly the movies whose torrent list is
not empty, reports that count, renders the average as N_slash_A when the
count is zero, and divides only under a positivity guard. -/
theorem C10_average_guard (movies : List Movie) (report : SizeReport)
    (h : calculate_size movies = some report) :
    report.movies_with_torrents =
      (movies.filter (fun m => !m.torrents.isEmpty)).length ∧
    (report.movies_with_torrents = 0 →
      report.average_line = "N/A (no movies with torrents)") ∧
    (0 < report.movies_with_torrents →
      report.average_line =
        format_size (report.total_bytes / report.movies_with_torrents)) := by
  unfold calculate_size at h
  cases hE : movies.isEmpty with
  | true => simp [hE] at h
  | false =>
    simp only [hE, Bool.false_eq_true, if_false] at h
    injection h with h2
    subst h2
    refine ⟨?_, ?_, ?_⟩
    · simpa using calc_fold_count movies (0, 0)
    · intro hz
      dsimp only at hz ⊢
      rw [if_neg (by omega)]
    · intro hp
      dsimp only at hp ⊢
      rw [if_pos hp]

/-- C10 witness: a one-movie collection with no torrents yields count zero
and the not-available average line. -/
theorem C10_average_guard_witness :
    empty_torrents_report.movies_with_torrents =
      (([uptodate_movie] : List Movie).filter (fun m => !m.torrents.isEmpty)).length ∧
    (empty_torrents_report.movies_with_torrents = 0 →
      empty_torrents_report.average_line = "N/A (no movies with torrents)") ∧
    (0 < empty_torrents_report.movies_with_torrents →
      empty_torrents_report.average_line =
        format_size
          (empty_torrents_report.total_bytes / empty_torrents_report.movies_with_torrents)) :=
  C10_average_guard [uptodate_movie] empty_torrents_report (by decide)

/-- C1: the claim fails on the code. With a non-empty local collection
(one movie, id 7) and a remote whose first listed item already carries id
7, the Step-2 boundary scan counts zero new items, yet fetch_movies does
not terminate before writing: the run still reaches the save and the
backing file content changes from ORIGINAL to the serializer output. The
zero-count branch of the source (main.rs lines 313 to 319) only binds a
dead progress bar and holds no early return, so the merge-and-save step
always runs. -/
theorem C1_zero_new_items_still_writes :
    scan_new_movies (pages_fetch [[example_item 7]]) (latest_id_of [uptodate_movie]) 3 1 0 =
      RunResult.ok (0, 1) ∧
    fetch_movies (fun _ => "REWRITTEN") (pages_fetch [[example_item 7]])
        [uptodate_movie] 3 "ORIGINAL" =
      (RunResult.ok ([], [uptodate_movie]), "REWRITTEN") ∧
    "REWRITTEN" ≠ "ORIGINAL" := by
  refine ⟨by decide, by decide, by decide⟩

/-- C2 counterexample: at the exact synthetic input of the claim (pages
100 down to 91, 90 down to 81, 80 down to 71, cursor 85) the boundary
scan reports 15 new items, not 5 as claimed; the scan does stop on page
2. -/
theorem C2_boundary_scan_counterexample :
    scan_new_movies (pages_fetch example_pages) 85 4 1 0 = RunResult.ok (15, 2) ∧
    (15 : Nat) ≠ 5 := by
  refine ⟨by decide, by decide⟩

/-- C2 (amended): for every positive cursor and remote listing sorted
newest-first, the boundary scan counts exactly the items strictly above
the cursor preceding the first item at or below it, and the last page it
requests is the page containing that first item (one past the listed
pages when no such item exists); in particular, for the synthetic pages
100 down to 91, 90 down to 81 and 80 down to 71 with cursor 85, the
new-item count is 15 (ids 86 to 100) and no third page is requested. -/
theorem C2_boundary_scan (pages : List (List ApiMovie)) (latest_id fuel : Nat)
    (hpos : 0 < latest_id)
    (hsorted : (pages.flatten.map ApiMovie.id).Sorted (· > ·))
    (hfuel : pages.length + 1 ≤ fuel) :
    scan_new_movies (pages_fetch pages) latest_id fuel 1 0 =
      RunResult.ok (spec_new_count latest_id pages, spec_stop_page latest_id pages) ∧
    scan_new_movies (pages_fetch example_pages) 85 4 1 0 = RunResult.ok (15, 2) := by
  constructor
  · have h := scan_new_movies_pages latest_id pages pages 1 0 fuel (le_refl 1) rfl hfuel
    rw [h, scan_list_count, scan_list_page]
    simp [spec_stop_page]
  · decide

/-- C2 witness: the amended scan theorem instantiated at the synthetic
three-page listing with cursor 85 and fuel 4. -/
theorem C2_boundary_scan_witness :
    scan_new_movies (pages_fetch example_pages) 85 4 1 0 =
      RunResult.ok (spec_new_count 85 example_pages, spec_stop_page 85 example_pages) ∧
    scan_new_movies (pages_fetch example_pages) 85 4 1 0 = RunResult.ok (15, 2) :=
  C2_boundary_scan example_pages 85 4 (by decide) (by decide) (by decide)

/-- C3: every successful sync that materializes k new movies persists a
collection of exactly the pre-sync size plus k, and every newly added id
strictly exceeds every pre-existing id. -/
theorem C3_growth_and_new_ids {σ : Type} {save : List Movie → σ}
    {fetch : Nat → FetchResult} {existing new_movies merged : List Movie}
    {fuel : Nat} {file0 : σ}
    (h : (fetch_movies save fetch existing fuel file0).1 =
      RunResult.ok (new_movies, merged)) :
    merged.length = existing.length + new_movies.length ∧
    ∀ m ∈ new_movies, ∀ p ∈ existing, p.id < m.id := by
  rw [fetch_movies_fst] at h
  obtain ⟨hloop, hmerged⟩ := fetch_movies_result_ok h
  constructor
  · rw [hmerged]
    have hlen := (List.perm_insertionSort movie_desc (new_movies ++ existing)).length_eq
    rw [sort_desc_by_id, hlen, List.length_append]
    omega
  · intro m hm p hp
    have hgt := fetch_pages_loop_gt (latest_id_of existing) fuel 1 [] new_movies hloop
      (fun x hx => absurd hx (List.not_mem_nil x)) m hm
    exact Nat.lt_of_le_of_lt (latest_id_of_ge hp) hgt

/-- C3 witness: syncing the one-movie store (id 1) against a remote page
holding ids 3 and 2 grows the store from 1 to 3 movies. -/
theorem C3_growth_and_new_ids_witness :
    witness_merged.length = ([witness_movie] : List Movie).length + witness_new.length ∧
    ∀ m ∈ witness_new, ∀ p ∈ ([witness_movie] : List Movie), p.id < m.id :=
  @C3_growth_and_new_ids (List Movie) (fun l => l) (pages_fetch witness_pages)
    [witness_movie] witness_new witness_merged 3 [] (by decide)

/-- C4: after every sync that writes, the persisted collection is sorted
by id in descending order: each element id is at least the next one. -/
theorem C4_sorted_desc {σ : Type} {save : List Movie → σ}
    {fetch : Nat → FetchResult} {existing new_movies merged : List Movie}
    {fuel : Nat} {file0 : σ}
    (h : (fetch_movies save fetch existing fuel file0).1 =
      RunResult.ok (new_movies, merged))
    (i : Nat) (hi : i + 1 < merged.length) :
    (merged.get ⟨i + 1, hi⟩).id ≤ (merged.get ⟨i, Nat.lt_of_succ_lt hi⟩).id := by
  rw [fetch_movies_fst] at h
  obtain ⟨-, hmerged⟩ := fetch_movies_result_ok h
  have hs : List.Sorted movie_desc merged := by
    rw [hmerged]
    exact List.sorted_insertionSort movie_desc _
  exact hs.rel_get_of_lt (Fin.mk_lt_mk.mpr (Nat.lt_succ_self i))

/-- C4 witness: the persisted three-movie collection of the concrete run
is descending at its first adjacent pair. -/
theorem C4_sorted_desc_witness :
    (witness_merged.get ⟨1, by decide⟩).id ≤ (witness_merged.get ⟨0, by decide⟩).id :=
  @C4_sorted_desc (List Movie) (fun l => l) (pages_fetch witness_pages)
    [witness_movie] witness_new witness_merged 3 [] (by decide) 0 (by decide)

/-- C5: a page fetch failure at any point aborts the run with that error
propagated and leaves the backing file exactly in its pre-sync state; the
reported error code is one returned by some page request. -/
theorem C5_fetch_failure_aborts {σ : Type} {save : List Movie → σ}
    {fetch : Nat → FetchResult} {existing : List Movie} {fuel : Nat}
    {file0 : σ} {e : Nat}
    (h : (fetch_movies save fetch existing fuel file0).1 = RunResult.err e) :
    (fetch_movies save fetch existing fuel file0).2 = file0 ∧
    ∃ p, fetch p = FetchResult.err e := by
  refine ⟨fetch_movies_file_of_err h, ?_⟩
  rw [fetch_movies_fst] at h
  exact fetch_movies_result_err h

/-- C5 witness: a remote that always fails with error code 42 leaves the
one-movie file untouched. -/
theorem C5_fetch_failure_aborts_witness :
    (fetch_movies (fun l => l) (fun _ => FetchResult.err 42) [witness_movie] 3
        ([uptodate_movie] : List Movie)).2 = [uptodate_movie] ∧
    ∃ p, (fun _ => FetchResult.err 42 : Nat → FetchResult) p = FetchResult.err 42 :=
  @C5_fetch_failure_aborts (List Movie) (fun l => l) (fun _ => FetchResult.err 42)
    [witness_movie] 3 [uptodate_movie] 42 (by decide)

/-- C6: starting from a stored collection whose ids are pairwise distinct,
against a remote listing whose flattened id stream is strictly descending
in scan order, any completed sync writes a merged collection whose ids are
again pairwise distinct. -/
theorem C6_merged_ids_nodup {σ : Type} {save : List Movie → σ}
    {pages : List (List ApiMovie)} {existing new_movies merged : List Movie}
    {fuel : Nat} {file0 : σ}
    (hnodup : (existing.map Movie.id).Nodup)
    (hsorted : (pages.flatten.map ApiMovie.id).Sorted (· > ·))
    (hfuel : pages.length + 1 ≤ fuel)
    (h : (fetch_movies save (pages_fetch pages) existing fuel file0).1 =
      RunResult.ok (new_movies, merged)) :
    (merged.map Movie.id).Nodup := by
  rw [fetch_movies_fst] at h
  obtain ⟨hloop, hmerged⟩ := fetch_movies_result_ok h
  have hbridge := fetch_pages_loop_pages (latest_id_of existing) pages pages 1 [] fuel
    (le_refl 1) rfl hfuel
  rw [hloop] at hbridge
  injection hbridge with hnew
  have hnew2 : new_movies =
      (pages.flatten.takeWhile
        (fun m => decide (latest_id_of existing < m.id))).map build_movie := by
    rw [hnew, List.nil_append, collect_list_eq]
  have hids : new_movies.map Movie.id =
      (pages.flatten.takeWhile
        (fun m => decide (latest_id_of existing < m.id))).map ApiMovie.id := by
    rw [hnew2, List.map_map]
    exact List.map_congr_left (fun a _ => rfl)
  have hsub : (new_movies.map Movie.id).Sublist (pages.flatten.map ApiMovie.id) := by
    rw [hids]
    exact (List.takeWhile_sublist _).map _
  have hpw : (new_movies.map Movie.id).Pairwise (· > ·) :=
    List.Pairwise.sublist hsub hsorted
  have hnodup_new : (new_movies.map Movie.id).Nodup :=
    hpw.imp (fun hab => ne_of_gt hab)
  have hperm : merged.Perm (new_movies ++ existing) := by
    rw [hmerged]
    exact List.perm_insertionSort movie_desc _
  have hperm_ids := hperm.map Movie.id
  rw [List.map_append] at hperm_ids
  refine hperm_ids.nodup_iff.mpr ?_
  rw [List.nodup_append]
  refine ⟨hnodup_new, hnodup, ?_⟩
  intro a ha hb
  rcases List.mem_map.mp ha with ⟨m, hm, rfl⟩
  rcases List.mem_map.mp hb with ⟨p, hp, hpa⟩
  have h1 : latest_id_of existing < m.id :=
    fetch_pages_loop_gt (latest_id_of existing) fuel 1 [] new_movies hloop
      (fun x hx => absurd hx (List.not_mem_nil x)) m hm
  have h2 : p.id ≤ latest_id_of existing := latest_id_of_ge hp
  omega

/-- C6 witness: the concrete run over ids 3 and 2 against the store
holding id 1 persists the ids 3, 2, 1, pairwise distinct. -/
theorem C6_merged_ids_nodup_witness :
    (witness_merged.map Movie.id).Nodup :=
  @C6_merged_ids_nodup (List Movie) (fun l => l) witness_pages
    [witness_movie] witness_new witness_merged 3 [] (by decide) (by decide)
    (by decide) (by decide)

end Yts
